import Mathlib

/-!
Shallow embedding of the spreadsheet-as-datastore adapter (`GoogleSheetsService`):
the schema loader (`loadColumnHeaders`), the sync engine (`syncSheet`), the lookup
(`getContentById`) and the locate-then-overwrite writer (`updateContent`), together
with the A1 range arithmetic both reader and writer share.

Cells of the remote sheet are modelled as strings ("" is a blank cell); the values a
JavaScript caller passes or reads are `Option String` (`none` is `null`); records are the
ordered key/value assignment lists that `syncSheet` builds, read back with JS-object
semantics (the last assignment to a key wins).
-/

namespace ContentBackend

/-- A JavaScript cell/field value: `none` is `null` (or a cleared cell), `some s` a string. -/
abbrev JSVal := Option String

/-- A record object as built by `syncSheet`: the ordered (key, value) assignments of a
JS object. -/
abbrev Item := List (String × Option String)

/-- An update payload (the `updates` object of `updateContent`): ordered (key, value) pairs. -/
abbrev Patch := List (String × JSVal)

/-- JS object member access over ordered assignments: the last assignment to a key wins;
`none` means the key is absent (JS `undefined`). -/
def lookupJS {α : Type} : List (String × α) → String → Option α
  | [], _ => none
  | (k, v) :: rest, key =>
      match lookupJS rest key with
      | some w => some w
      | none => if k = key then some v else none

/-- The remote sheet: row 1 (the header row) and the data rows 2..N.  Cells are the strings
the remote store returns; a blank cell is `""`; rows may be shorter than the header
(trailing blank cells are trimmed by the remote store). -/
structure Sheet where
  header : List String
  data : List (List String)

/-- How `syncSheet` turns a raw cell into a record field (`row[index] || null`, line 153):
a missing or blank (falsy) cell becomes `null`, any other cell keeps its text. -/
def cellToField (c : String) : Option String := if c = "" then none else some c

/-- One record of `syncSheet` (lines 150-156):
`headers.forEach((header, index) => item[header] = row[index] || null)`, walking the header
list with the row aligned position by position. -/
def buildItem : List String → List String → Item
  | [], _ => []
  | h :: hs, row => (h, cellToField (row.headD "")) :: buildItem hs row.tail

/-- Reading field `key` of a record object (`item[key]`): `none` when the key is absent
(JS `undefined`), `some v` when the stored value is `v`. -/
def getField (item : Item) (key : String) : Option (Option String) := lookupJS item key

/-- `syncSheet` (lines 132-161), success path: every fetched data row becomes a record
keyed by the header list. -/
def syncSheet (s : Sheet) : List Item := s.data.map (buildItem s.header)

/-- `getContentById` (lines 163-166): a full sync, then
`find(item => item['Post ID'] === id)` — the identifier field name is hard-wired to
the literal column name `"Post ID"`. -/
def getContentById (s : Sheet) (id : String) : Option Item :=
  (syncSheet s).find? (fun item => getField item "Post ID" == some (some id))

/-- `rows.findIndex((row, index) => index > 0 && row[0] === id)` (line 187), as a recursion
carrying the current index; `row[0] === id` is `row.head? = some id` (an empty row has no
cell 0, and JS `undefined === id` is false). -/
def findRowIdx : List (List String) → String → Nat → Option Nat
  | [], _, _ => none
  | row :: rest, id, i =>
      if 0 < i ∧ row.head? = some id then some i else findRowIdx rest id (i + 1)

/-- Position among the data rows of the first row whose first cell equals `id`
(the data-row view of `findRowIdx` over header-plus-data). -/
def firstIdRow : List (List String) → String → Option Nat
  | [], _ => none
  | row :: rest, id =>
      if row.head? = some id then some 0 else (firstIdRow rest id).map (· + 1)

/-- The value a written cell holds afterwards: writing a string stores it, writing `null`
clears the cell (it reads back blank). -/
def jsToCell (v : JSVal) : String := v.getD ""

/-- Effect of the bulk write of one row over the range `A(r):(lastCol)(r)` (lines 207-214):
cells 1..n are replaced by the sent values and cells beyond the schema span are untouched. -/
def overwriteRow (old : List String) (vals : List JSVal) : List String :=
  vals.map jsToCell ++ old.drop vals.length

/-- `newRowData` (lines 197-204): for each header take `updates[header]` when the caller
supplied it (`!== undefined`), else the existing cell (`existingData[colIndex] || ''`). -/
def buildNewRow : List String → List String → Patch → List JSVal
  | [], _, _ => []
  | h :: hs, existing, updates =>
      (match lookupJS updates h with
       | some v => v
       | none => some (existing.headD "")) :: buildNewRow hs existing.tail updates

/-- The error `updateContent` throws when no data row matches (line 190). -/
def notFoundMsg (id : String) : String := "Content with ID " ++ id ++ " not found"

/-- `updateContent` (lines 168-222): read `A:lastCol` (header plus data rows), locate the
first row strictly after the header whose first cell is `id`, rebuild the full row from the
patch and the freshly read row, and overwrite that row in place; throws when no row
matches (and in that case issues no write). -/
def updateContent (s : Sheet) (id : String) (updates : Patch) : Except String Sheet :=
  match findRowIdx (s.header :: s.data) id 0 with
  | none => Except.error (notFoundMsg id)
  | some rowIndex =>
      let existingData := (s.header :: s.data).getD rowIndex []
      let newRowData := buildNewRow s.header existingData updates
      Except.ok { header := s.header,
                  data := s.data.set (rowIndex - 1) (overwriteRow existingData newRowData) }

/-- `loadColumnHeaders` (lines 48-62): `response.data.values?.[0] || []`.  The input is the
optional `values` field of the remote response for range `1:1` (absent when row 1 is
entirely empty). -/
def loadColumnHeaders (values : Option (List (List String))) : List String :=
  (values.getD []).headD []

/-- The service's mutable fields that a sync touches.  The class caches no record snapshot
between syncs — only the headers and the last-sync timestamp persist. -/
structure SvcState where
  lastSyncTime : Option Nat
  columnHeaders : List String

/-- `syncSheet` (lines 132-161) as a state transition on the service: a failed read is
rethrown with the state untouched; a successful read sets `lastSyncTime` and maps the
fetched rows (`response.data.values || []`) to records wholesale. -/
def syncStep (st : SvcState) (readResult : Except String (Option (List (List String))))
    (now : Nat) : Except String (List Item) × SvcState :=
  match readResult with
  | Except.error e => (Except.error e, st)
  | Except.ok values =>
      (Except.ok ((values.getD []).map (buildItem st.columnHeaders)),
       { st with lastSyncTime := some now })

/-- `String.fromCharCode(65 + headers.length - 1)` (lines 139 and 175): the character the
code uses as the last column letter of the schema span. -/
def lastColLetter (numHeaders : Nat) : Char := Char.ofNat (65 + numHeaders - 1)

/-- Which 1-based sheet column a single A1 column letter denotes; `none` when the character
is not one of the letters `A`..`Z`. -/
def colLetterIndex (c : Char) : Option Nat :=
  if 65 ≤ c.toNat ∧ c.toNat ≤ 90 then some (c.toNat - 64) else none

/-- A single-row A1 cell range `startCol startRow : endCol endRow`. -/
structure CellRange where
  startCol : Char
  startRow : Nat
  endCol : Char
  endRow : Nat

/-- The range `updateContent` writes to (line 209):
`A(rowIndex + 1):(lastCol)(rowIndex + 1)` where `rowIndex` is the 0-based index of the
located row in the header-plus-data read. -/
def updateWriteRange (numHeaders rowIndex : Nat) : CellRange :=
  { startCol := 'A', startRow := rowIndex + 1,
    endCol := lastColLetter numHeaders, endRow := rowIndex + 1 }

/-! ### List indexing helpers -/

theorem headD_eq_getD_zero (row : List String) : row.headD "" = row.getD 0 "" := by
  cases row <;> rfl

theorem tail_getD (row : List String) (j : Nat) : row.tail.getD j "" = row.getD (j + 1) "" := by
  cases row <;> rfl

theorem getD_map_lt {α β : Type} (f : α → β) (l : List α) (j : Nat) (hj : j < l.length)
    (d : α) (d' : β) : (l.map f).getD j d' = f (l.getD j d) := by
  induction l generalizing j with
  | nil => exact absurd hj (by simp)
  | cons a t ih =>
      cases j with
      | zero => rfl
      | succ j => exact ih j (Nat.lt_of_succ_lt_succ (by simpa using hj))

theorem getD_append_lt {α : Type} (l₁ l₂ : List α) (j : Nat) (hj : j < l₁.length) (d : α) :
    (l₁ ++ l₂).getD j d = l₁.getD j d := by
  induction l₁ generalizing j with
  | nil => exact absurd hj (by simp)
  | cons a t ih =>
      cases j with
      | zero => rfl
      | succ j => exact ih j (Nat.lt_of_succ_lt_succ (by simpa using hj))

theorem getD_set_self {α : Type} (l : List α) (k : Nat) (x : α) (hk : k < l.length) (d : α) :
    (l.set k x).getD k d = x := by
  induction l generalizing k with
  | nil => exact absurd hk (by simp)
  | cons a t ih =>
      cases k with
      | zero => rfl
      | succ k => exact ih k (Nat.lt_of_succ_lt_succ (by simpa using hk))

theorem getD_set_ne {α : Type} (l : List α) (k m : Nat) (x : α) (h : m ≠ k) (d : α) :
    (l.set k x).getD m d = l.getD m d := by
  induction l generalizing k m with
  | nil => cases k <;> rfl
  | cons a t ih =>
      cases k with
      | zero =>
          cases m with
          | zero => exact absurd rfl h
          | succ m => rfl
      | succ k =>
          cases m with
          | zero => rfl
          | succ m => exact ih k m (fun he => h (by omega))

/-! ### `lookupJS`, `buildItem` and `buildNewRow` characterizations -/

theorem lookupJS_mem {α : Type} (p : List (String × α)) (k : String) (v : α)
    (h : lookupJS p k = some v) : (k, v) ∈ p := by
  induction p with
  | nil => exact absurd h (by simp [lookupJS])
  | cons a rest ih =>
      obtain ⟨a1, a2⟩ := a
      rw [lookupJS] at h
      cases hr : lookupJS rest k with
      | some w =>
          rw [hr] at h
          cases h
          exact List.mem_cons_of_mem _ (ih hr)
      | none =>
          rw [hr] at h
          by_cases he : a1 = k
          · simp only [he, if_pos rfl] at h
            cases h
            subst he
            exact List.mem_cons_self _ _
          · simp [he] at h

theorem lookupJS_buildItem_not_mem (hs : List String) (row : List String) (key : String)
    (hk : key ∉ hs) : lookupJS (buildItem hs row) key = none := by
  induction hs generalizing row with
  | nil => rfl
  | cons a t ih =>
      rw [buildItem, lookupJS, ih _ (fun hm => hk (List.mem_cons_of_mem _ hm))]
      have hne : a ≠ key := fun he => hk (he ▸ List.mem_cons_self _ _)
      simp [hne]

theorem lookupJS_buildItem (hs : List String) (hnd : hs.Nodup) (row : List String) (j : Nat)
    (hj : j < hs.length) :
    lookupJS (buildItem hs row) (hs.getD j "") = some (cellToField (row.getD j "")) := by
  induction hs generalizing row j with
  | nil => exact absurd hj (by simp)
  | cons a t ih =>
      obtain ⟨hna, hnt⟩ := List.nodup_cons.mp hnd
      cases j with
      | zero =>
          have hgd : (a :: t).getD 0 "" = a := rfl
          rw [hgd, buildItem, headD_eq_getD_zero, lookupJS,
            lookupJS_buildItem_not_mem t row.tail a hna]
          simp
      | succ j =>
          have hgd : (a :: t).getD (j + 1) "" = t.getD j "" := rfl
          rw [hgd, buildItem, lookupJS,
            ih hnt row.tail j (Nat.lt_of_succ_lt_succ (by simpa using hj)), tail_getD]

theorem buildItem_values (hs : List String) (row : List String) (key : String)
    (v : Option String) (h : (key, v) ∈ buildItem hs row) : ∃ c, v = cellToField c := by
  induction hs generalizing row with
  | nil => exact absurd h (by simp [buildItem])
  | cons a t ih =>
      rw [buildItem] at h
      rcases List.mem_cons.mp h with h1 | h2
      · exact ⟨row.headD "", (Prod.mk.injEq _ _ _ _ ▸ h1).2⟩
      · exact ih _ h2

theorem buildNewRow_length (hs existing : List String) (p : Patch) :
    (buildNewRow hs existing p).length = hs.length := by
  induction hs generalizing existing with
  | nil => rfl
  | cons a t ih => rw [buildNewRow]; simp [ih]

theorem buildNewRow_getD (hs existing : List String) (p : Patch) (j : Nat)
    (hj : j < hs.length) :
    (buildNewRow hs existing p).getD j none =
      (lookupJS p (hs.getD j "")).getD (some (existing.getD j "")) := by
  induction hs generalizing existing j with
  | nil => exact absurd hj (by simp)
  | cons a t ih =>
      cases j with
      | zero =>
          rw [buildNewRow]
          cases hl : lookupJS p a with
          | some v => simp [List.getD_cons_zero, hl]
          | none =>
              simp [List.getD_cons_zero, hl]
              cases existing <;> simp
      | succ j =>
          rw [buildNewRow]
          show (buildNewRow t existing.tail p).getD j none = _
          rw [ih existing.tail j (Nat.lt_of_succ_lt_succ (by simpa using hj)), tail_getD]
          rfl

/-! ### Locating the target row -/

theorem findRowIdx_succ (rows : List (List String)) (id : String) (i : Nat) :
    findRowIdx rows id (i + 1) = (firstIdRow rows id).map (· + (i + 1)) := by
  induction rows generalizing i with
  | nil => rfl
  | cons r rest ih =>
      by_cases hr : r.head? = some id
      · rw [findRowIdx, firstIdRow, if_pos ⟨Nat.succ_pos i, hr⟩, if_pos hr]
        simp
      · rw [findRowIdx, firstIdRow, if_neg (fun hc => hr hc.2), if_neg hr, ih (i + 1)]
        cases firstIdRow rest id with
        | none => rfl
        | some k => simp; omega

theorem findRowIdx_header (hd : List String) (rows : List (List String)) (id : String) :
    findRowIdx (hd :: rows) id 0 = (firstIdRow rows id).map (· + 1) := by
  rw [findRowIdx, if_neg (fun hc => Nat.lt_irrefl 0 hc.1), findRowIdx_succ rows id 0]

theorem firstIdRow_spec (rows : List (List String)) (id : String) (k : Nat)
    (h : firstIdRow rows id = some k) :
    k < rows.length ∧ (rows.getD k []).head? = some id ∧
      ∀ m, m < k → (rows.getD m []).head? ≠ some id := by
  induction rows generalizing k with
  | nil => exact absurd h (by rw [firstIdRow]; simp)
  | cons r rest ih =>
      by_cases hr : r.head? = some id
      · rw [firstIdRow, if_pos hr] at h
        cases h
        exact ⟨by simp, hr, fun m hm => absurd hm (Nat.not_lt_zero m)⟩
      · rw [firstIdRow, if_neg hr] at h
        obtain ⟨k', hk', hkk⟩ := Option.map_eq_some'.mp h
        subst hkk
        obtain ⟨h1, h2, h3⟩ := ih k' hk'
        refine ⟨by simpa using Nat.succ_lt_succ h1, h2, fun m hm => ?_⟩
        cases m with
        | zero => exact hr
        | succ m => exact h3 m (Nat.lt_of_succ_lt_succ hm)

theorem firstIdRow_exists (rows : List (List String)) (id : String)
    (h : ∃ r ∈ rows, r.head? = some id) : ∃ k, firstIdRow rows id = some k := by
  induction rows with
  | nil => exact absurd h (by simp)
  | cons r rest ih =>
      by_cases hr : r.head? = some id
      · exact ⟨0, by rw [firstIdRow, if_pos hr]⟩
      · obtain ⟨r', hr', hid'⟩ := h
        rcases List.mem_cons.mp hr' with he | hm
        · exact absurd (he ▸ hid') hr
        · obtain ⟨k, hk⟩ := ih ⟨r', hm, hid'⟩
          exact ⟨k + 1, by rw [firstIdRow, if_neg hr, hk]; rfl⟩

theorem firstIdRow_none (rows : List (List String)) (id : String)
    (h : ∀ r ∈ rows, r.head? ≠ some id) : firstIdRow rows id = none := by
  induction rows with
  | nil => rfl
  | cons r rest ih =>
      rw [firstIdRow, if_neg (h r (List.mem_cons_self _ _)),
        ih (fun r' hr' => h r' (List.mem_cons_of_mem _ hr'))]
      rfl

theorem firstIdRow_set (rows : List (List String)) (id : String) (k : Nat)
    (newRow : List String) (hk : firstIdRow rows id = some k)
    (hnew : newRow.head? = some id) : firstIdRow (rows.set k newRow) id = some k := by
  induction rows generalizing k with
  | nil => exact absurd hk (by rw [firstIdRow]; simp)
  | cons r rest ih =>
      by_cases hr : r.head? = some id
      · rw [firstIdRow, if_pos hr] at hk
        cases hk
        rw [List.set_cons_zero, firstIdRow, if_pos hnew]
      · rw [firstIdRow, if_neg hr] at hk
        obtain ⟨k', hk', hkk⟩ := Option.map_eq_some'.mp hk
        subst hkk
        rw [List.set_cons_succ, firstIdRow, if_neg hr, ih k' hk']
        rfl

/-! ### Unfolding `updateContent` at a located or missing row -/

theorem updateContent_notFound (s : Sheet) (id : String) (p : Patch)
    (h : firstIdRow s.data id = none) :
    updateContent s id p = Except.error (notFoundMsg id) := by
  rw [updateContent, findRowIdx_header, h]
  rfl

theorem updateContent_found (s : Sheet) (id : String) (p : Patch) (k : Nat)
    (hk : firstIdRow s.data id = some k) :
    updateContent s id p =
      Except.ok ⟨s.header,
        s.data.set k (overwriteRow (s.data.getD k [])
          (buildNewRow s.header (s.data.getD k []) p))⟩ := by
  rw [updateContent, findRowIdx_header, hk]
  show Except.ok _ = _
  have hrows : (s.header :: s.data).getD (k + 1) [] = s.data.getD k [] := rfl
  have hsub : k + 1 - 1 = k := rfl
  rw [hrows, hsub]

/-! ### Characterizing `getContentById` -/

theorem cellToField_eq_some_iff (c v : String) (hv : v ≠ "") :
    cellToField c = some v ↔ c = v := by
  unfold cellToField
  by_cases hc : c = ""
  · subst hc
    rw [if_pos rfl]
    constructor
    · intro h; cases h
    · intro h; exact absurd h.symm hv
  · simp [hc]

theorem head_eq_iff_getD_eq (r : List String) (id : String) (hid : id ≠ "") :
    r.head? = some id ↔ r.getD 0 "" = id := by
  cases r with
  | nil =>
      simp only [List.head?_nil, List.getD_nil]
      constructor
      · intro h; cases h
      · intro h; exact absurd h.symm hid
  | cons a t => simp

theorem getById_pred_eq (hs : List String) (t : List String) (hnd : hs.Nodup)
    (hhd : hs = "Post ID" :: t) (id : String) (hid : id ≠ "") (r : List String) :
    (getField (buildItem hs r) "Post ID" == some (some id)) = (r.head? == some id) := by
  have h0 : hs.getD 0 "" = "Post ID" := by rw [hhd]; rfl
  have hlen : 0 < hs.length := by rw [hhd]; simp
  have hfield := lookupJS_buildItem hs hnd r 0 hlen
  rw [h0] at hfield
  rw [getField, hfield]
  by_cases hc : r.head? = some id
  · have hcell : cellToField (r.getD 0 "") = some id :=
      (cellToField_eq_some_iff _ _ hid).mpr ((head_eq_iff_getD_eq r id hid).mp hc)
    rw [hcell, hc]
    simp
  · have hcell : cellToField (r.getD 0 "") ≠ some id :=
      fun h => hc ((head_eq_iff_getD_eq r id hid).mpr ((cellToField_eq_some_iff _ _ hid).mp h))
    rw [beq_eq_false_iff_ne.mpr (fun h => hcell (Option.some.inj h)),
      beq_eq_false_iff_ne.mpr hc]

theorem find?_buildItem (hs : List String) (data : List (List String)) (id : String)
    (pred : Item → Bool)
    (hpred : ∀ r, pred (buildItem hs r) = (r.head? == some id)) :
    (data.map (buildItem hs)).find? pred =
      (firstIdRow data id).map (fun k => buildItem hs (data.getD k [])) := by
  induction data with
  | nil => rfl
  | cons r rest ih =>
      by_cases hr : r.head? = some id
      · have hp : pred (buildItem hs r) = true := by rw [hpred, beq_iff_eq]; exact hr
        rw [List.map_cons, List.find?_cons_of_pos _ hp, firstIdRow, if_pos hr]
        rfl
      · have hp : pred (buildItem hs r) = false := by
          rw [hpred, beq_eq_false_iff_ne]; exact hr
        rw [List.map_cons, List.find?_cons_of_neg _ (by simp [hp]), firstIdRow, if_neg hr, ih]
        cases firstIdRow rest id with
        | none => rfl
        | some k => rfl

theorem getContentById_eq (s : Sheet) (id : String) (hnd : s.header.Nodup)
    (hhead : s.header.head? = some "Post ID") (hid : id ≠ "") :
    getContentById s id =
      (firstIdRow s.data id).map (fun k => buildItem s.header (s.data.getD k [])) := by
  obtain ⟨t, hhd⟩ : ∃ t, s.header = "Post ID" :: t := by
    cases hh : s.header with
    | nil => rw [hh, List.head?_nil] at hhead; cases hhead
    | cons a t =>
        rw [hh, List.head?_cons] at hhead
        exact ⟨t, by rw [Option.some.inj hhead]⟩
  unfold getContentById syncSheet
  exact find?_buildItem s.header s.data id _ (getById_pred_eq s.header t hnd hhd id hid)

/-! ### The written row -/

theorem overwriteRow_getD (old : List String) (vals : List JSVal) (j : Nat)
    (hj : j < vals.length) :
    (overwriteRow old vals).getD j "" = jsToCell (vals.getD j none) := by
  unfold overwriteRow
  rw [getD_append_lt _ _ j (by simpa using hj)]
  exact getD_map_lt jsToCell vals j hj none ""

theorem overwriteRow_head (old : List String) (v : JSVal) (rest : List JSVal) :
    (overwriteRow old (v :: rest)).head? = some (jsToCell v) := rfl

theorem cellToField_jsToCell (v : JSVal) (hv : v ≠ some "") :
    cellToField (jsToCell v) = v := by
  cases v with
  | none => rfl
  | some str =>
      have hne : str ≠ "" := fun h => hv (by rw [h])
      simp [jsToCell, cellToField, hne]

theorem cellToField_ne_some_empty (c : String) : cellToField c ≠ some "" := by
  unfold cellToField
  by_cases hc : c = "" <;> simp [hc]

/-! ### Claim C2 -/

/-- C2, counterexample: with schema `[ID, Status]` and rows `[["a","Draft"],["b","Approved"]]`,
`getById("b")` does NOT return the record `{ID:"b", Status:"Approved"}` — it returns nothing,
because the lookup field is hard-wired to the column name `"Post ID"`, which this schema does
not have. -/
theorem c2_generic_schema_cex :
    getContentById ⟨["ID", "Status"], [["a", "Draft"], ["b", "Approved"]]⟩ "b" = none := rfl

/-- C2, amended: the scenario holds once the identifier column is named `Post ID` (the name
the code hard-wires): `getById("b")` returns the record, `update("b",{Status:"Published"})`
rewrites row `b` to `["b","Published"]` leaving row `a` untouched, and a re-sync shows
exactly that. -/
theorem c2_post_id_schema_roundtrip :
    getContentById ⟨["Post ID", "Status"], [["a", "Draft"], ["b", "Approved"]]⟩ "b" =
      some [("Post ID", some "b"), ("Status", some "Approved")] ∧
    updateContent ⟨["Post ID", "Status"], [["a", "Draft"], ["b", "Approved"]]⟩ "b"
        [("Status", some "Published")] =
      Except.ok ⟨["Post ID", "Status"], [["a", "Draft"], ["b", "Published"]]⟩ ∧
    syncSheet ⟨["Post ID", "Status"], [["a", "Draft"], ["b", "Published"]]⟩ =
      [[("Post ID", some "a"), ("Status", some "Draft")],
       [("Post ID", some "b"), ("Status", some "Published")]] :=
  ⟨rfl, rfl, rfl⟩

/-! ### Claim C3 -/

/-- C3, counterexample: when row 1 is empty (the remote response carries no `values` field),
`loadColumnHeaders` returns the empty column list instead of failing with a `SchemaError` —
the claimed error does not exist on this path. -/
theorem c3_empty_header_cex : loadColumnHeaders none = [] := rfl

/-- C3, amended: an empty header row makes schema loading return the empty column list
(no error is raised), whichever shape the empty remote response takes. -/
theorem c3_empty_header_returns_empty_list :
    loadColumnHeaders none = [] ∧ loadColumnHeaders (some []) = [] ∧
      loadColumnHeaders (some [[]]) = [] :=
  ⟨rfl, rfl, rfl⟩

/-! ### Claim C6 -/

/-- C6: a sync whose remote read fails rethrows the error and leaves the service state —
the last-sync timestamp in particular, and the class holds no other snapshot — completely
unchanged; a sync whose read succeeds returns the wholesale re-mapped record list and sets
the timestamp, so any record list a caller observes is the output of one completed sync. -/
theorem c6_failed_sync_preserves_state (st : SvcState) (e : String)
    (values : Option (List (List String))) (now : Nat) :
    syncStep st (Except.error e) now = (Except.error e, st) ∧
    syncStep st (Except.ok values) now =
      (Except.ok ((values.getD []).map (buildItem st.columnHeaders)),
       { st with lastSyncTime := some now }) :=
  ⟨rfl, rfl⟩

/-! ### Claim C7 -/

/-- C7, counterexample: for a schema of 27 columns the computed end of the write range is the
character after `Z`, which is not a column letter at all, so the written range does not span
columns 1 through 27. -/
theorem c7_wide_schema_cex :
    (updateWriteRange 27 1).endCol = '[' ∧
      colLetterIndex ((updateWriteRange 27 1).endCol) = none := by
  constructor <;> decide

/-- C7, amended: for every schema of `n` columns with `1 ≤ n ≤ 26` and every located 0-based
row index `r`, the write targets the single sheet row `r + 1` and spans exactly columns
1 through `n`; beyond 26 columns the single-character arithmetic produces no valid column. -/
theorem c7_write_range_spans_schema (n r : Nat) (h1 : 1 ≤ n) (h2 : n ≤ 26) :
    (updateWriteRange n r).startRow = r + 1 ∧
    (updateWriteRange n r).endRow = r + 1 ∧
    colLetterIndex (updateWriteRange n r).startCol = some 1 ∧
    colLetterIndex (updateWriteRange n r).endCol = some n := by
  refine ⟨rfl, rfl, ?_, ?_⟩
  · show colLetterIndex 'A' = some 1
    decide
  · show colLetterIndex (lastColLetter n) = some n
    interval_cases n <;> decide

/-- C7, witness: the amended range theorem applied to a two-column schema writing row 5. -/
theorem c7_write_range_witness :
    (1 ≤ 2 ∧ 2 ≤ 26) ∧
    ((updateWriteRange 2 4).startRow = 5 ∧
     (updateWriteRange 2 4).endRow = 5 ∧
     colLetterIndex (updateWriteRange 2 4).startCol = some 1 ∧
     colLetterIndex (updateWriteRange 2 4).endCol = some 2) :=
  ⟨⟨by decide, by decide⟩, c7_write_range_spans_schema 2 4 (by decide) (by decide)⟩

/-! ### Claim C4 -/

/-- C4: when no data row (the header row does not count) has its identifier-column cell equal
to `id`, `updateContent` fails with the not-found error and never reaches the write call, so
no cell of the sheet changes. -/
theorem c4_update_missing_id_no_write (s : Sheet) (id : String) (p : Patch)
    (h : ∀ r ∈ s.data, r.head? ≠ some id) :
    updateContent s id p = Except.error (notFoundMsg id) ∧
      ∀ s', updateContent s id p ≠ Except.ok s' := by
  have he := updateContent_notFound s id p (firstIdRow_none s.data id h)
  exact ⟨he, fun s' hc => by rw [he] at hc; cases hc⟩

/-- C4, witness: updating the absent identifier `"z"` on a one-row sheet fails with the
not-found error and is never a successful write. -/
theorem c4_update_missing_id_witness :
    (∀ r ∈ [["a", "Draft"]], List.head? r ≠ some "z") ∧
    (updateContent ⟨["Post ID", "Status"], [["a", "Draft"]]⟩ "z" [] =
        Except.error (notFoundMsg "z") ∧
      ∀ s', updateContent ⟨["Post ID", "Status"], [["a", "Draft"]]⟩ "z" [] ≠ Except.ok s') :=
  ⟨by decide, c4_update_missing_id_no_write ⟨["Post ID", "Status"], [["a", "Draft"]]⟩ "z" []
    (by decide)⟩

/-! ### Claim C5 -/

/-- C5: a successful sync yields exactly one record per data row in row order, and (for a
schema without duplicate column names, the spec's stated data-model invariant) the field named
by column `j` of record `i` holds cell `j` of row `i`, with blank or missing cells mapped to
`null` rather than an error. -/
theorem c5_sync_maps_rows (s : Sheet) (hnd : s.header.Nodup) (i j : Nat)
    (hi : i < s.data.length) (hj : j < s.header.length) :
    (syncSheet s).length = s.data.length ∧
    getField ((syncSheet s).getD i []) (s.header.getD j "") =
      some (cellToField ((s.data.getD i []).getD j "")) := by
  constructor
  · simp [syncSheet]
  · rw [syncSheet, getD_map_lt (buildItem s.header) s.data i hi []]
    exact lookupJS_buildItem s.header hnd (s.data.getD i []) j hj

/-- C5, witness: on a sheet whose first data row is short, the missing `Status` cell of
record 0 reads back as `null` and the sync has one record per row. -/
theorem c5_sync_maps_rows_witness :
    ((["Post ID", "Status"] : List String).Nodup ∧ (0 : Nat) < 2 ∧ (1 : Nat) < 2) ∧
    ((syncSheet ⟨["Post ID", "Status"], [["a"], ["b", "Approved"]]⟩).length = 2 ∧
      getField ((syncSheet ⟨["Post ID", "Status"], [["a"], ["b", "Approved"]]⟩).getD 0 [])
        "Status" = some none) :=
  ⟨⟨by decide, by decide, by decide⟩,
   c5_sync_maps_rows ⟨["Post ID", "Status"], [["a"], ["b", "Approved"]]⟩ (by decide) 0 1
     (by decide) (by decide)⟩

/-! ### Claim C8 -/

/-- C8: position `j` of the row built by `updateContent` is `patch[column j]` whenever the
caller supplied that key — including an explicit `null` or empty value — and otherwise the
existing cell just read (empty when the existing row is short); and two patches that agree on
every schema column build the same row, so keys outside the schema have no effect. -/
theorem c8_built_row_merges_patch (hs existing : List String) (p : Patch) (j : Nat)
    (hj : j < hs.length) :
    ((buildNewRow hs existing p).getD j none =
      (lookupJS p (hs.getD j "")).getD (some (existing.getD j ""))) ∧
    ∀ p' : Patch, (∀ k ∈ hs, lookupJS p' k = lookupJS p k) →
      buildNewRow hs existing p' = buildNewRow hs existing p := by
  refine ⟨buildNewRow_getD hs existing p j hj, ?_⟩
  intro p' hagree
  clear hj
  induction hs generalizing existing with
  | nil => rfl
  | cons a t ih =>
      rw [buildNewRow, buildNewRow, hagree a (List.mem_cons_self _ _),
        ih existing.tail (fun k hk => hagree k (List.mem_cons_of_mem _ hk))]

/-- C8, witness: patching `Status` to `null` puts `null` at the `Status` position of the
built row (clearing it), while the untouched `Post ID` position keeps the existing cell. -/
theorem c8_built_row_witness :
    ((1 : Nat) < (["Post ID", "Status"] : List String).length) ∧
    (buildNewRow ["Post ID", "Status"] ["b", "Approved"] [("Status", none)]).getD 1 none =
      (lookupJS ([("Status", none)] : Patch) "Status").getD (some "Approved") :=
  ⟨by decide, (c8_built_row_merges_patch ["Post ID", "Status"] ["b", "Approved"]
      [("Status", none)] 1 (by decide)).1⟩

/-! ### Claim C9 -/

/-- C9: when some data row carries identifier `id` (there may be several), `updateContent`
rewrites exactly the first such row — the one with the lowest row number strictly after the
header — and every other row of the sheet, later duplicates included, is left unchanged. -/
theorem c9_update_touches_only_first_match (s : Sheet) (id : String) (p : Patch)
    (hex : ∃ r ∈ s.data, r.head? = some id) :
    ∃ s' k, updateContent s id p = Except.ok s' ∧
      s'.header = s.header ∧
      s'.data.length = s.data.length ∧
      (s.data.getD k []).head? = some id ∧
      (∀ m, m < k → (s.data.getD m []).head? ≠ some id) ∧
      (∀ m, m ≠ k → s'.data.getD m [] = s.data.getD m []) := by
  obtain ⟨k, hk⟩ := firstIdRow_exists s.data id hex
  obtain ⟨hlt, hmatch, hfirst⟩ := firstIdRow_spec s.data id k hk
  refine ⟨_, k, updateContent_found s id p k hk, rfl, by simp, hmatch, hfirst, ?_⟩
  intro m hm
  exact getD_set_ne s.data k m _ hm []

/-- C9, witness: on a sheet with two rows both carrying identifier `"x"`, the update touches
only the first of them. -/
theorem c9_update_first_match_witness :
    (∃ r ∈ [["x", "1"], ["x", "2"]], List.head? r = some "x") ∧
    (∃ s' k, updateContent ⟨["Post ID", "Status"], [["x", "1"], ["x", "2"]]⟩ "x"
          [("Status", some "A")] = Except.ok s' ∧
        s'.header = ["Post ID", "Status"] ∧
        s'.data.length = ([["x", "1"], ["x", "2"]] : List (List String)).length ∧
        (([["x", "1"], ["x", "2"]] : List (List String)).getD k []).head? = some "x" ∧
        (∀ m, m < k →
          (([["x", "1"], ["x", "2"]] : List (List String)).getD m []).head? ≠ some "x") ∧
        (∀ m, m ≠ k →
          s'.data.getD m [] = ([["x", "1"], ["x", "2"]] : List (List String)).getD m [])) :=
  ⟨by decide, c9_update_touches_only_first_match
    ⟨["Post ID", "Status"], [["x", "1"], ["x", "2"]]⟩ "x" [("Status", some "A")] (by decide)⟩

/-! ### Claim C10 -/

/-- C10: no record a sync produces ever holds the empty string as a field value — blank and
missing cells, and every other falsy cell, come back as `null` — so in particular a field
written as the empty string by an update reads back as `null`. -/
theorem c10_no_empty_string_fields (s : Sheet) (item : Item) (hitem : item ∈ syncSheet s)
    (key : String) (v : Option String) (hv : getField item key = some v) :
    v ≠ some "" := by
  unfold syncSheet at hitem
  obtain ⟨row, hrow, hbuild⟩ := List.mem_map.mp hitem
  subst hbuild
  obtain ⟨c, hc⟩ := buildItem_values s.header row key v (lookupJS_mem _ _ _ hv)
  rw [hc]
  exact cellToField_ne_some_empty c

/-- C10, witness: the record of a row whose only cell is blank carries `null`, not `""`, in
that field. -/
theorem c10_no_empty_string_witness :
    ([("A", (none : Option String))] ∈ syncSheet ⟨["A"], [[""]]⟩ ∧
      getField [("A", (none : Option String))] "A" = some none) ∧
    (none : Option String) ≠ some "" :=
  ⟨⟨by decide, by decide⟩,
   c10_no_empty_string_fields ⟨["A"], [[""]]⟩ [("A", none)] (by decide) "A" none (by decide)⟩

/-! ### Claim C1 -/

/-- C1, counterexample: patching a field to the (valid, per the spec) empty value breaks the
claimed round trip — `update("b", {Status: ""})` succeeds, but `getById("b")` then shows the
`Status` field as `null`, not as the patched value `""`, because the sync maps falsy cells
to `null`. -/
theorem c1_empty_patch_value_cex :
    updateContent ⟨["Post ID", "Status"], [["b", "Approved"]]⟩ "b" [("Status", some "")] =
      Except.ok ⟨["Post ID", "Status"], [["b", ""]]⟩ ∧
    getContentById ⟨["Post ID", "Status"], [["b", ""]]⟩ "b" =
      some [("Post ID", some "b"), ("Status", none)] ∧
    getField [("Post ID", some "b"), ("Status", none)] "Status" ≠ some (some "") :=
  ⟨rfl, rfl, by decide⟩

/-- C1, amended: for a duplicate-free schema whose identifier column is the code's hard-wired
first column `Post ID`, a non-blank identifier carried by some data row, and a patch that
contains no empty-string value and does not change the identifier field, `update(id, patch)`
followed by `getById(id)` shows every schema field named in the patch equal to its patched
value and every schema field absent from the patch equal to its value before the update. -/
theorem c1_update_then_get_preserves_fields (s : Sheet) (id : String) (p : Patch)
    (hnd : s.header.Nodup) (hhead : s.header.head? = some "Post ID") (hid : id ≠ "")
    (hvals : ∀ q ∈ p, q.2 ≠ some "")
    (hpid : lookupJS p "Post ID" = none ∨ lookupJS p "Post ID" = some (some id))
    (hex : ∃ r ∈ s.data, r.head? = some id) :
    ∃ s' item₀ item,
      updateContent s id p = Except.ok s' ∧
      getContentById s id = some item₀ ∧
      getContentById s' id = some item ∧
      ∀ j, j < s.header.length →
        (∀ v, lookupJS p (s.header.getD j "") = some v →
          getField item (s.header.getD j "") = some v) ∧
        (lookupJS p (s.header.getD j "") = none →
          getField item (s.header.getD j "") = getField item₀ (s.header.getD j "")) := by
  obtain ⟨k, hk⟩ := firstIdRow_exists s.data id hex
  obtain ⟨hklt, hkmatch, -⟩ := firstIdRow_spec s.data id k hk
  set old := s.data.getD k [] with hold
  set vals := buildNewRow s.header old p with hvalsdef
  set newRow := overwriteRow old vals with hnewdef
  have hupd : updateContent s id p = Except.ok ⟨s.header, s.data.set k newRow⟩ :=
    updateContent_found s id p k hk
  have hnlen : 0 < s.header.length := by
    cases hh : s.header with
    | nil => rw [hh, List.head?_nil] at hhead; cases hhead
    | cons a t => simp
  have hhd0 : s.header.getD 0 "" = "Post ID" := by
    cases hh : s.header with
    | nil => rw [hh, List.head?_nil] at hhead; cases hhead
    | cons a t =>
        rw [hh, List.head?_cons] at hhead
        rw [List.getD_cons_zero]
        exact Option.some.inj hhead
  have hvals_len : vals.length = s.header.length := buildNewRow_length _ _ _
  have h0vals : 0 < vals.length := by rw [hvals_len]; exact hnlen
  have hval0 : vals.getD 0 none =
      (lookupJS p (s.header.getD 0 "")).getD (some (old.getD 0 "")) :=
    buildNewRow_getD s.header old p 0 hnlen
  have hold0 : old.getD 0 "" = id := (head_eq_iff_getD_eq old id hid).mp hkmatch
  have hjs : jsToCell (vals.getD 0 none) = id := by
    rw [hval0, hhd0]
    rcases hpid with hp | hp
    · rw [hp, Option.getD_none]
      show old.getD 0 "" = id
      exact hold0
    · rw [hp, Option.getD_some]
      rfl
  have hnew0 : newRow.getD 0 "" = jsToCell (vals.getD 0 none) :=
    overwriteRow_getD old vals 0 h0vals
  have hnewhead : newRow.head? = some id :=
    (head_eq_iff_getD_eq newRow id hid).mpr (by rw [hnew0, hjs])
  have hk' : firstIdRow (s.data.set k newRow) id = some k :=
    firstIdRow_set s.data id k newRow hk hnewhead
  have hget0 : getContentById s id = some (buildItem s.header old) := by
    rw [getContentById_eq s id hnd hhead hid, hk]
    rfl
  have hget1 : getContentById ⟨s.header, s.data.set k newRow⟩ id =
      some (buildItem s.header newRow) := by
    rw [getContentById_eq ⟨s.header, s.data.set k newRow⟩ id hnd hhead hid]
    show (firstIdRow (s.data.set k newRow) id).map _ = _
    rw [hk', Option.map_some', getD_set_self s.data k newRow hklt []]
  refine ⟨⟨s.header, s.data.set k newRow⟩, buildItem s.header old, buildItem s.header newRow,
    hupd, hget0, hget1, ?_⟩
  intro j hj
  have hkey := lookupJS_buildItem s.header hnd newRow j hj
  have hkey0 := lookupJS_buildItem s.header hnd old j hj
  have hnewj : newRow.getD j "" = jsToCell (vals.getD j none) :=
    overwriteRow_getD old vals j (by rw [hvals_len]; exact hj)
  have hvalsj : vals.getD j none =
      (lookupJS p (s.header.getD j "")).getD (some (old.getD j "")) :=
    buildNewRow_getD s.header old p j hj
  constructor
  · intro v hv
    have hvne : v ≠ some "" := hvals _ (lookupJS_mem p _ v hv)
    simp only [getField]
    rw [hkey, hnewj, hvalsj, hv, Option.getD_some, cellToField_jsToCell v hvne]
  · intro hv
    simp only [getField]
    rw [hkey, hkey0, hnewj, hvalsj, hv, Option.getD_none]
    rfl

/-- C1, witness: the amended round trip on a two-row sheet, patching `Status` of row `b` to
`Published`. -/
theorem c1_update_then_get_witness :
    ((["Post ID", "Status"] : List String).Nodup ∧ "b" ≠ "" ∧
      (∀ q ∈ ([("Status", some "Published")] : Patch), q.2 ≠ some "") ∧
      (∃ r ∈ [["a", "Draft"], ["b", "Approved"]], List.head? r = some "b")) ∧
    (∃ s' item₀ item,
      updateContent ⟨["Post ID", "Status"], [["a", "Draft"], ["b", "Approved"]]⟩ "b"
          [("Status", some "Published")] = Except.ok s' ∧
      getContentById ⟨["Post ID", "Status"], [["a", "Draft"], ["b", "Approved"]]⟩ "b" =
        some item₀ ∧
      getContentById s' "b" = some item ∧
      ∀ j, j < (["Post ID", "Status"] : List String).length →
        (∀ v, lookupJS ([("Status", some "Published")] : Patch)
            ((["Post ID", "Status"] : List String).getD j "") = some v →
          getField item ((["Post ID", "Status"] : List String).getD j "") = some v) ∧
        (lookupJS ([("Status", some "Published")] : Patch)
            ((["Post ID", "Status"] : List String).getD j "") = none →
          getField item ((["Post ID", "Status"] : List String).getD j "") =
            getField item₀ ((["Post ID", "Status"] : List String).getD j ""))) :=
  ⟨⟨by decide, by decide, by decide, by decide⟩,
   c1_update_then_get_preserves_fields
     ⟨["Post ID", "Status"], [["a", "Draft"], ["b", "Approved"]]⟩ "b"
     [("Status", some "Published")] (by decide) rfl (by decide) (by decide)
     (Or.inl (by decide)) (by decide)⟩

end ContentBackend
